import Mathlib

/-!
Verification of the `threatpool` worker-pool library (`src/lib.rs`) against its
natural-language specification.

The embedding is a shallow one: the shared pool state
(`ThreadPoolSharedData`: the counters `queued_count`, `active_count`,
`max_thread_count`, `panic_count`, the job channel, and the idle-notification
condvar's waiter set) together with the program counter of every worker thread
is collected in one record `PoolState`.  Each atomic action of the Rust code
(one `fetch_add`/`fetch_sub`, one `recv` under the `job_receiver` mutex, one
`send`, one condvar block/notify under the `empty_trigger` mutex) becomes one
transition of an interleaving step relation `Step`, so every possible
interleaving of worker steps, submissions and replacements is a `Reachable`
state.  Counters are `Nat`; `fetch_sub` is truncated subtraction, which agrees
with the wrapping `usize` subtraction of the source on every reachable state
because the invariants proved below show the counters are never decremented
past zero there.
-/

set_option autoImplicit false

namespace Threatpool

/-- Program counter of one worker thread inside the loop of `spawn_in_pool`
(src/lib.rs lines 171-203).  `idle` is the top of the loop (about to compare
`active_count` with `max_thread_count`); `claiming` is blocked in
`job_receiver.lock().recv()`; `gotJob` is just after `recv` returned `Ok(job)`
and before `active_count.fetch_add(1)` (line 193); `midClaim` is between
`active_count.fetch_add(1)` and `queued_count.fetch_sub(1)` (line 194);
`running` is inside `job.call_box()`; `notifying` is after
`active_count.fetch_sub(1)` (line 198) and before `no_work_notify_all()`
(line 199); `exited` is a terminated thread. -/
inductive WorkerState where
  | idle
  | claiming
  | gotJob
  | midClaim
  | running
  | notifying
  | exited
deriving DecidableEq

/-- Global state of the pool: the fields of `ThreadPoolSharedData`
(src/lib.rs lines 111-121) plus the contents of the mpsc channel
(`chan_len`, the number of sent-but-not-received jobs), whether the `Sender`
has been dropped (`closed`), the number of threads blocked on the
`empty_condvar` (`waiters`), and the program counter of every worker thread
ever spawned (`workers`). -/
structure PoolState where
  workers : List WorkerState
  queued_count : Nat
  active_count : Nat
  chan_len : Nat
  panic_count : Nat
  max_thread_count : Nat
  closed : Bool
  waiters : Nat
deriving DecidableEq

/-- Embedding of `ThreadPoolSharedData::has_work` (src/lib.rs lines 124-126):
`queued_count > 0 || active_count > 0`. -/
def has_work (s : PoolState) : Bool :=
  decide (0 < s.queued_count) || decide (0 < s.active_count)

/-- Embedding of `ThreadPoolSharedData::no_work_notify_all` (src/lib.rs lines
128-136): if `!has_work()`, take the `empty_trigger` lock and
`empty_condvar.notify_all()`, which wakes every blocked waiter (`waiters`
becomes 0); otherwise do nothing. -/
def no_work_notify_all (s : PoolState) : PoolState :=
  if has_work s then s else { s with waiters := 0 }

/-- Embedding of `spawn_in_pool` (src/lib.rs lines 160-205): start one new
worker thread, bound to the same shared state, at the top of its loop. -/
def spawn_in_pool (s : PoolState) : PoolState :=
  { s with workers := s.workers ++ [WorkerState.idle] }

/-- Embedding of the `Sentinel` guard (src/lib.rs lines 18-34): it only
remembers whether it is still armed. -/
structure Sentinel where
  active : Bool
deriving DecidableEq

/-- Embedding of `Sentinel::new` (src/lib.rs lines 24-29). -/
def Sentinel.new : Sentinel := { active := true }

/-- Embedding of `Sentinel::cancel` (src/lib.rs lines 31-33): disarm the
guard. -/
def Sentinel.cancel (_g : Sentinel) : Sentinel := { active := false }

/-- Embedding of `impl Drop for Sentinel` (src/lib.rs lines 36-47), run when
the worker's stack unwinds or its closure returns: if still armed, decrement
`active_count`, increment `panic_count` when the thread is panicking, call
`no_work_notify_all`, and `spawn_in_pool` a replacement; if disarmed, do
nothing. -/
def Sentinel.dropRun (g : Sentinel) (panicking : Bool) (s : PoolState) : PoolState :=
  if g.active then
    let s1 := { s with active_count := s.active_count - 1 }
    let s2 := if panicking then { s1 with panic_count := s1.panic_count + 1 } else s1
    spawn_in_pool (no_work_notify_all s2)
  else s

/-- Embedding of `Builder` (src/lib.rs lines 49-54). -/
structure Builder where
  num_threads : Nat
  thread_name : Option String
  thread_stack_size : Option Nat
deriving DecidableEq

/-- Embedding of `Builder::new` (src/lib.rs lines 58-64). -/
def Builder.new : Builder :=
  { num_threads := 0, thread_name := none, thread_stack_size := none }

/-- Embedding of `Builder::num_threads` (src/lib.rs lines 66-69). -/
def Builder.numThreads (b : Builder) (n : Nat) : Builder :=
  { b with num_threads := n }

/-- Pool state right after `Builder::build` returned (src/lib.rs lines
88-107): `num_threads` workers spawned at the loop top, all counters zero,
`max_thread_count` set to `num_threads`, channel open and empty. -/
def initState (n : Nat) : PoolState :=
  { workers := List.replicate n WorkerState.idle
    queued_count := 0
    active_count := 0
    chan_len := 0
    panic_count := 0
    max_thread_count := n
    closed := false
    waiters := 0 }

/-- Embedding of `Builder::build` (src/lib.rs lines 81-108): panics (modelled
as `Except.error` carrying the panic message) when `num_threads == 0`,
otherwise spawns the workers and returns the pool. -/
def Builder.build (b : Builder) : Except String PoolState :=
  if b.num_threads = 0 then Except.error "please enter a size bigger than 0"
  else Except.ok (initState b.num_threads)

/-- Embedding of `ThreadPool::new` (src/lib.rs lines 145-147). -/
def ThreadPool.new (n : Nat) : Except String PoolState :=
  (Builder.new.numThreads n).build

/-- Embedding of `ThreadPool::execute` (src/lib.rs lines 149-157): first
`queued_count.fetch_add(1)`, then `jobs.send(Box::new(job))`; when the channel
is closed the `send` fails and `expect` panics with the given message
(modelled as `Except.error`); the failed branch performs no rollback of the
counter and does not enqueue. -/
def ThreadPool.execute (s : PoolState) : PoolState × Except String Unit :=
  let s1 := { s with queued_count := s.queued_count + 1 }
  if s1.closed then
    (s1, Except.error "ThreadPool::execute unable to send job into queue.")
  else
    ({ s1 with chan_len := s1.chan_len + 1 }, Except.ok ())

/-- Embedding of dropping the `ThreadPool` handle (src/lib.rs lines 139-142):
the struct has no `Drop` impl and no join, so destruction merely drops the
`Sender` field, closing the producer side of the channel, and returns at
once. -/
def ThreadPool.dropHandle (s : PoolState) : PoolState :=
  { s with closed := true }

/-- Modelled from the spec: `wait_until_idle` is described in §4.2 and §6 of
the specification but is absent from src/ (only the notification side,
`no_work_notify_all`, is in the source).  Under the `empty_trigger` mutex it
checks `has_work()`; if there is work it blocks on `empty_condvar` (the
caller joins the waiter set and the call has not yet returned, result
`false`), otherwise it returns immediately (result `true`).  The check and
the block are a single atomic step because both happen under the same mutex
that `no_work_notify_all` takes before notifying. -/
def wait_until_idle_step (s : PoolState) : PoolState × Bool :=
  if has_work s then ({ s with waiters := s.waiters + 1 }, false) else (s, true)

/-- Program counter of worker `i`, `none` when no such worker was ever
spawned. -/
def workerAt (s : PoolState) (i : Nat) : Option WorkerState :=
  s.workers.get? i

/-- Replace the program counter of worker `i`. -/
def setWorker (s : PoolState) (i : Nat) (w : WorkerState) : PoolState :=
  { s with workers := s.workers.set i w }

/-- Loop-top comparison failing (src/lib.rs lines 176-179): the worker read
`active_count >= max_thread_count` and breaks out of the loop; the `Sentinel`
is then cancelled (line 202) so its drop is inert and the thread exits. -/
def checkExitStep (s : PoolState) (i : Nat) : PoolState :=
  Sentinel.dropRun (Sentinel.cancel Sentinel.new) false (setWorker s i WorkerState.exited)

/-- Loop-top comparison passing (src/lib.rs lines 176-180): the worker read
`active_count < max_thread_count` and proceeds to block on the channel. -/
def checkPassStep (s : PoolState) (i : Nat) : PoolState :=
  setWorker s i WorkerState.claiming

/-- A blocked `recv` under the `job_receiver` mutex returns `Ok(job)`
(src/lib.rs lines 181-190): one job leaves the channel buffer. -/
def recvJobStep (s : PoolState) (i : Nat) : PoolState :=
  { setWorker s i WorkerState.gotJob with chan_len := s.chan_len - 1 }

/-- A blocked `recv` returns `Err` (src/lib.rs line 191), which an mpsc
channel does only once the buffer is drained and every `Sender` is dropped;
the worker breaks, cancels its `Sentinel` (line 202) and the thread exits. -/
def recvClosedStep (s : PoolState) (i : Nat) : PoolState :=
  Sentinel.dropRun (Sentinel.cancel Sentinel.new) false (setWorker s i WorkerState.exited)

/-- `active_count.fetch_add(1, SeqCst)` (src/lib.rs line 193). -/
def incActiveStep (s : PoolState) (i : Nat) : PoolState :=
  { setWorker s i WorkerState.midClaim with active_count := s.active_count + 1 }

/-- `queued_count.fetch_sub(1, SeqCst)` (src/lib.rs line 194). -/
def decQueuedStep (s : PoolState) (i : Nat) : PoolState :=
  { setWorker s i WorkerState.running with queued_count := s.queued_count - 1 }

/-- `job.call_box()` returned normally, then `active_count.fetch_sub(1)`
(src/lib.rs lines 196-198). -/
def finishJobStep (s : PoolState) (i : Nat) : PoolState :=
  { setWorker s i WorkerState.notifying with active_count := s.active_count - 1 }

/-- `no_work_notify_all()` after a finished job (src/lib.rs line 199), then
back to the top of the loop. -/
def notifyStep (s : PoolState) (i : Nat) : PoolState :=
  no_work_notify_all (setWorker s i WorkerState.idle)

/-- `job.call_box()` panicked: the worker's stack unwinds, the armed
`Sentinel` is dropped while `thread::panicking()` (src/lib.rs lines 36-47)
and the thread exits. -/
def panicStep (s : PoolState) (i : Nat) : PoolState :=
  Sentinel.dropRun Sentinel.new true (setWorker s i WorkerState.exited)

/-- One atomic action of some thread of the system: a producer submitting,
the handle being dropped, one worker taking one step, or a caller entering
`wait_until_idle`. -/
inductive Step : PoolState → PoolState → Prop where
  | submit {s : PoolState} :
      s.closed = false → Step s (ThreadPool.execute s).1
  | dropHandle {s : PoolState} :
      s.closed = false → Step s (ThreadPool.dropHandle s)
  | checkExit {s : PoolState} (i : Nat) :
      workerAt s i = some WorkerState.idle →
      s.max_thread_count ≤ s.active_count → Step s (checkExitStep s i)
  | checkPass {s : PoolState} (i : Nat) :
      workerAt s i = some WorkerState.idle →
      s.active_count < s.max_thread_count → Step s (checkPassStep s i)
  | recvJob {s : PoolState} (i : Nat) :
      workerAt s i = some WorkerState.claiming →
      0 < s.chan_len → Step s (recvJobStep s i)
  | recvClosed {s : PoolState} (i : Nat) :
      workerAt s i = some WorkerState.claiming →
      s.chan_len = 0 → s.closed = true → Step s (recvClosedStep s i)
  | incActive {s : PoolState} (i : Nat) :
      workerAt s i = some WorkerState.gotJob → Step s (incActiveStep s i)
  | decQueued {s : PoolState} (i : Nat) :
      workerAt s i = some WorkerState.midClaim → Step s (decQueuedStep s i)
  | finishJob {s : PoolState} (i : Nat) :
      workerAt s i = some WorkerState.running → Step s (finishJobStep s i)
  | notify {s : PoolState} (i : Nat) :
      workerAt s i = some WorkerState.notifying → Step s (notifyStep s i)
  | panicJob {s : PoolState} (i : Nat) :
      workerAt s i = some WorkerState.running → Step s (panicStep s i)
  | waitBlock {s : PoolState} :
      has_work s = true → Step s (wait_until_idle_step s).1

/-- States reachable from `init` by any interleaving of `Step`s. -/
inductive Reachable (init : PoolState) : PoolState → Prop where
  | refl : Reachable init init
  | tail {s s' : PoolState} : Reachable init s → Step s s' → Reachable init s'

/-- Number of live (not yet exited) worker threads. -/
def liveCount (s : PoolState) : Nat :=
  s.workers.countP (fun w => !decide (w = WorkerState.exited))

/-- Number of workers between `active_count.fetch_add(1)` and their
`active_count.fetch_sub(1)`. -/
def regionCount (s : PoolState) : Nat :=
  s.workers.countP
    (fun w => decide (w = WorkerState.midClaim) || decide (w = WorkerState.running))

/-- Number of workers that have received a job but not yet performed
`queued_count.fetch_sub(1)`. -/
def gmCount (s : PoolState) : Nat :=
  s.workers.countP
    (fun w => decide (w = WorkerState.gotJob) || decide (w = WorkerState.midClaim))

/-- Global invariant of the pool, preserved by every `Step`:
`active_count` counts the workers between their `fetch_add` and `fetch_sub`
of `active_count`; `queued_count` counts the jobs still in the channel plus
the workers that received a job but have not yet performed
`queued_count.fetch_sub(1)`; the live workers never exceed
`max_thread_count`; and whenever a waiter is blocked while `has_work()` is
already false, some worker is just about to run `no_work_notify_all`. -/
def Inv (s : PoolState) : Prop :=
  s.active_count = regionCount s ∧
  s.queued_count = s.chan_len + gmCount s ∧
  liveCount s ≤ s.max_thread_count ∧
  (0 < s.waiters → has_work s = false →
    ∃ i, workerAt s i = some WorkerState.notifying)

/-- Concrete execution trace on a pool of one worker, used below: one job is
submitted, one caller blocks in the modelled `wait_until_idle`, then the
worker claims and finishes the job. -/
def sA : PoolState := initState 1

/-- After `ThreadPool::execute`: `queued_count = 1`, one job in the channel. -/
def sB : PoolState := (ThreadPool.execute sA).1

/-- After a caller blocked in the modelled `wait_until_idle`. -/
def sC : PoolState := (wait_until_idle_step sB).1

/-- The worker passed the loop-top comparison. -/
def sD : PoolState := checkPassStep sC 0

/-- The worker received the job from the channel. -/
def sE : PoolState := recvJobStep sD 0

/-- The worker performed `active_count.fetch_add(1)` but has not yet
performed `queued_count.fetch_sub(1)`: here `queued_count = 1` and
`active_count = 1` simultaneously. -/
def sF : PoolState := incActiveStep sE 0

/-- The worker performed `queued_count.fetch_sub(1)` and is running the
job. -/
def sG : PoolState := decQueuedStep sF 0

/-- The job returned and the worker performed `active_count.fetch_sub(1)`:
`has_work` is now false, the waiter is still blocked, and the worker is
about to call `no_work_notify_all`. -/
def sH : PoolState := finishJobStep sG 0

/-- Concrete execution trace on a pool of two workers, used below: one job
is submitted and claimed by worker 0; while worker 0 is still running it,
the handle is dropped and worker 1 receives the closed-signal and exits. -/
def zA : PoolState := initState 2

/-- After `ThreadPool::execute`. -/
def zB : PoolState := (ThreadPool.execute zA).1

/-- Worker 0 passed the loop-top comparison. -/
def zC : PoolState := checkPassStep zB 0

/-- Worker 0 received the job. -/
def zD : PoolState := recvJobStep zC 0

/-- Worker 0 performed `active_count.fetch_add(1)`. -/
def zE : PoolState := incActiveStep zD 0

/-- Worker 0 performed `queued_count.fetch_sub(1)` and is running the job. -/
def zF : PoolState := decQueuedStep zE 0

/-- The `ThreadPool` handle was dropped while worker 0 is still running the
job: the producer side is closed and drop has already returned. -/
def zG : PoolState := ThreadPool.dropHandle zF

/-- Worker 1 passed the loop-top comparison. -/
def zH : PoolState := checkPassStep zG 1

/-- Worker 1 received the closed-signal and exited while worker 0 is still
running the claimed job. -/
def zI : PoolState := recvClosedStep zH 1

/-- A pool state whose `max_thread_count` was 0 with one idle worker, used
to exercise the loop-top comparison `active_count >= max_thread_count`. -/
def w0 : PoolState :=
  { workers := [WorkerState.idle]
    queued_count := 0
    active_count := 0
    chan_len := 0
    panic_count := 0
    max_thread_count := 0
    closed := false
    waiters := 0 }

section ListLemmas

variable {α : Type} (p q : α → Bool)

lemma get?_set (l : List α) (i j : Nat) (a : α) :
    (l.set i a).get? j = if j = i ∧ i < l.length then some a else l.get? j := by
  induction l generalizing i j with
  | nil => simp [List.set]
  | cons hd tl ih =>
    cases i with
    | zero =>
      cases j with
      | zero => simp [List.set]
      | succ j => simp [List.set]
    | succ i =>
      cases j with
      | zero => simp [List.set]
      | succ j =>
        simp only [List.set, List.get?, ih, List.length_cons]
        by_cases h : j = i ∧ i < tl.length
        · rw [if_pos h, if_pos ⟨by omega, by omega⟩]
        · rw [if_neg h, if_neg (by omega)]

lemma get?_concat (l : List α) (x : α) (i : Nat) :
    (l ++ [x]).get? i =
      if i < l.length then l.get? i else if i = l.length then some x else none := by
  induction l generalizing i with
  | nil =>
    cases i with
    | zero => simp
    | succ i => simp [List.get?]
  | cons hd tl ih =>
    cases i with
    | zero => simp
    | succ i =>
      simp only [List.cons_append, List.get?, List.length_cons]
      rw [show (tl.append [x]) = tl ++ [x] from rfl, ih i]
      by_cases h : i < tl.length
      · rw [if_pos h, if_pos (show i + 1 < tl.length + 1 by omega)]
      · rw [if_neg h, if_neg (show ¬(i + 1 < tl.length + 1) by omega)]
        by_cases h2 : i = tl.length
        · rw [if_pos h2, if_pos (show i + 1 = tl.length + 1 by omega)]
        · rw [if_neg h2, if_neg (show ¬(i + 1 = tl.length + 1) by omega)]

lemma countP_set (l : List α) (i : Nat) (a b : α) (h : l.get? i = some a) :
    (l.set i b).countP p =
      l.countP p + (if p b then 1 else 0) - (if p a then 1 else 0) := by
  induction l generalizing i with
  | nil => simp [List.get?] at h
  | cons hd tl ih =>
    cases i with
    | zero =>
      simp only [List.get?] at h
      cases h
      simp only [List.set, List.countP_cons]
      by_cases hb : p b <;> by_cases ha : p a <;> simp [hb, ha]
    | succ i =>
      simp only [List.get?] at h
      simp only [List.set, List.countP_cons, ih i h]
      have : (if p a then 1 else 0) ≤ tl.countP p + (if p b then 1 else 0) := by
        by_cases ha : p a
        · have : a ∈ tl := List.get?_mem h
          have : 0 < tl.countP p := List.countP_pos_iff.mpr ⟨a, this, ha⟩
          simp only [ha, if_true]
          omega
        · simp [ha]
      by_cases hh : p hd <;> (simp [hh]; try omega)

lemma countP_pos_of_get? (l : List α) (i : Nat) (a : α)
    (h : l.get? i = some a) (hp : p a = true) : 0 < l.countP p :=
  List.countP_pos_iff.mpr ⟨a, List.get?_mem h, hp⟩

lemma countP_le_of_imp (l : List α) (h : ∀ a, p a = true → q a = true) :
    l.countP p ≤ l.countP q := by
  induction l with
  | nil => simp
  | cons hd tl ih =>
    simp only [List.countP_cons]
    by_cases hh : p hd
    · simp [hh, h hd hh]; omega
    · by_cases hq : q hd <;> simp [hh, hq] <;> omega

lemma countP_replicate (n : Nat) (a : α) :
    (List.replicate n a).countP p = if p a then n else 0 := by
  induction n with
  | zero => simp
  | succ n ih =>
    simp only [List.replicate, List.countP_cons, ih]
    by_cases ha : p a <;> simp [ha]

end ListLemmas

section EffectLemmas

variable (s : PoolState) (i : Nat) (w : WorkerState)

@[simp] lemma setWorker_workers : (setWorker s i w).workers = s.workers.set i w := rfl

@[simp] lemma setWorker_queued : (setWorker s i w).queued_count = s.queued_count := rfl

@[simp] lemma setWorker_active : (setWorker s i w).active_count = s.active_count := rfl

@[simp] lemma setWorker_chan : (setWorker s i w).chan_len = s.chan_len := rfl

@[simp] lemma setWorker_panic : (setWorker s i w).panic_count = s.panic_count := rfl

@[simp] lemma setWorker_max : (setWorker s i w).max_thread_count = s.max_thread_count := rfl

@[simp] lemma setWorker_closed : (setWorker s i w).closed = s.closed := rfl

@[simp] lemma setWorker_waiters : (setWorker s i w).waiters = s.waiters := rfl

@[simp] lemma notify_workers : (no_work_notify_all s).workers = s.workers := by
  unfold no_work_notify_all; split <;> rfl

@[simp] lemma notify_queued : (no_work_notify_all s).queued_count = s.queued_count := by
  unfold no_work_notify_all; split <;> rfl

@[simp] lemma notify_active : (no_work_notify_all s).active_count = s.active_count := by
  unfold no_work_notify_all; split <;> rfl

@[simp] lemma notify_chan : (no_work_notify_all s).chan_len = s.chan_len := by
  unfold no_work_notify_all; split <;> rfl

@[simp] lemma notify_panic : (no_work_notify_all s).panic_count = s.panic_count := by
  unfold no_work_notify_all; split <;> rfl

@[simp] lemma notify_max : (no_work_notify_all s).max_thread_count = s.max_thread_count := by
  unfold no_work_notify_all; split <;> rfl

@[simp] lemma notify_closed : (no_work_notify_all s).closed = s.closed := by
  unfold no_work_notify_all; split <;> rfl

lemma notify_waiters :
    (no_work_notify_all s).waiters = if has_work s then s.waiters else 0 := by
  unfold no_work_notify_all; split <;> simp [*]

@[simp] lemma spawn_workers : (spawn_in_pool s).workers = s.workers ++ [WorkerState.idle] := rfl

@[simp] lemma spawn_queued : (spawn_in_pool s).queued_count = s.queued_count := rfl

@[simp] lemma spawn_active : (spawn_in_pool s).active_count = s.active_count := rfl

@[simp] lemma spawn_chan : (spawn_in_pool s).chan_len = s.chan_len := rfl

@[simp] lemma spawn_panic : (spawn_in_pool s).panic_count = s.panic_count := rfl

@[simp] lemma spawn_max : (spawn_in_pool s).max_thread_count = s.max_thread_count := rfl

@[simp] lemma spawn_closed : (spawn_in_pool s).closed = s.closed := rfl

@[simp] lemma spawn_waiters : (spawn_in_pool s).waiters = s.waiters := rfl

lemma checkExitStep_eq : checkExitStep s i = setWorker s i WorkerState.exited := rfl

lemma recvClosedStep_eq : recvClosedStep s i = setWorker s i WorkerState.exited := rfl

lemma panicStep_eq :
    panicStep s i =
      spawn_in_pool (no_work_notify_all
        { setWorker s i WorkerState.exited with
            active_count := s.active_count - 1
            panic_count := s.panic_count + 1 }) := rfl

lemma execute_fst :
    (ThreadPool.execute s).1 =
      if s.closed then { s with queued_count := s.queued_count + 1 }
      else { s with queued_count := s.queued_count + 1, chan_len := s.chan_len + 1 } := by
  by_cases h : s.closed <;> simp [ThreadPool.execute, h]

lemma wait_until_idle_step_fst :
    (wait_until_idle_step s).1 =
      if has_work s then { s with waiters := s.waiters + 1 } else s := by
  by_cases h : has_work s <;> simp [wait_until_idle_step, h]

lemma workerAt_lt_length (h : workerAt s i = some w) : i < s.workers.length := by
  unfold workerAt at h
  by_cases hl : i < s.workers.length
  · exact hl
  · rw [List.get?_eq_none.mpr (by omega)] at h
    exact absurd h (by simp)

end EffectLemmas

lemma inv_initState (n : Nat) : Inv (initState n) := by
  refine ⟨?_, ?_, ?_, ?_⟩
  · simp [initState, regionCount, countP_replicate]
  · simp [initState, gmCount, countP_replicate]
  · simp [initState, liveCount, countP_replicate]
  · intro h
    simp [initState] at h

section CountLemmas

lemma workerAt_set_self (s : PoolState) (i : Nat) (w w' : WorkerState)
    (h : workerAt s i = some w) :
    workerAt (setWorker s i w') i = some w' := by
  unfold workerAt setWorker
  simp only []
  rw [get?_set, if_pos ⟨rfl, workerAt_lt_length s i w h⟩]

lemma workerAt_set_ne (s : PoolState) (i j : Nat) (w : WorkerState)
    (hne : j ≠ i) :
    workerAt (setWorker s i w) j = workerAt s j := by
  unfold workerAt setWorker
  simp only []
  rw [get?_set, if_neg (fun hc => hne hc.1)]

lemma regionCount_set (s : PoolState) (i : Nat) (w w' : WorkerState)
    (h : workerAt s i = some w) :
    regionCount (setWorker s i w') =
      regionCount s
        + (if w' = WorkerState.midClaim ∨ w' = WorkerState.running then 1 else 0)
        - (if w = WorkerState.midClaim ∨ w = WorkerState.running then 1 else 0) := by
  unfold workerAt at h
  unfold regionCount setWorker
  simp only []
  rw [countP_set _ _ _ _ _ h]
  simp only [Bool.or_eq_true, decide_eq_true_eq]

lemma gmCount_set (s : PoolState) (i : Nat) (w w' : WorkerState)
    (h : workerAt s i = some w) :
    gmCount (setWorker s i w') =
      gmCount s
        + (if w' = WorkerState.gotJob ∨ w' = WorkerState.midClaim then 1 else 0)
        - (if w = WorkerState.gotJob ∨ w = WorkerState.midClaim then 1 else 0) := by
  unfold workerAt at h
  unfold gmCount setWorker
  simp only []
  rw [countP_set _ _ _ _ _ h]
  simp only [Bool.or_eq_true, decide_eq_true_eq]

lemma liveCount_set (s : PoolState) (i : Nat) (w w' : WorkerState)
    (h : workerAt s i = some w) :
    liveCount (setWorker s i w') =
      liveCount s
        + (if w' = WorkerState.exited then 0 else 1)
        - (if w = WorkerState.exited then 0 else 1) := by
  unfold workerAt at h
  unfold liveCount setWorker
  simp only []
  rw [countP_set _ _ _ _ _ h]
  by_cases hw : w = WorkerState.exited <;> by_cases hw' : w' = WorkerState.exited <;>
    simp [hw, hw']

lemma regionCount_pos (s : PoolState) (i : Nat) (w : WorkerState)
    (h : workerAt s i = some w)
    (hw : w = WorkerState.midClaim ∨ w = WorkerState.running) :
    0 < regionCount s :=
  countP_pos_of_get? _ s.workers i w h (by simpa using hw)

lemma gmCount_pos (s : PoolState) (i : Nat) (w : WorkerState)
    (h : workerAt s i = some w)
    (hw : w = WorkerState.gotJob ∨ w = WorkerState.midClaim) :
    0 < gmCount s :=
  countP_pos_of_get? _ s.workers i w h (by simpa using hw)

lemma liveCount_pos (s : PoolState) (i : Nat) (w : WorkerState)
    (h : workerAt s i = some w) (hw : w ≠ WorkerState.exited) :
    0 < liveCount s :=
  countP_pos_of_get? _ s.workers i w h (by simpa using hw)

lemma regionCount_append_idle (l : List WorkerState)
    (s : PoolState) (h : s.workers = l ++ [WorkerState.idle]) :
    regionCount s =
      (l.countP (fun w => decide (w = WorkerState.midClaim) || decide (w = WorkerState.running))) := by
  unfold regionCount
  rw [h, List.countP_append]
  simp

lemma gmCount_append_idle (l : List WorkerState)
    (s : PoolState) (h : s.workers = l ++ [WorkerState.idle]) :
    gmCount s =
      (l.countP (fun w => decide (w = WorkerState.gotJob) || decide (w = WorkerState.midClaim))) := by
  unfold gmCount
  rw [h, List.countP_append]
  simp

lemma liveCount_append_idle (l : List WorkerState)
    (s : PoolState) (h : s.workers = l ++ [WorkerState.idle]) :
    liveCount s = (l.countP (fun w => !decide (w = WorkerState.exited))) + 1 := by
  unfold liveCount
  rw [h, List.countP_append]
  simp

end CountLemmas

lemma inv_step {s s' : PoolState} (hstep : Step s s') (hs : Inv s) : Inv s' := by
  obtain ⟨h1, h2, h3, h4⟩ := hs
  cases hstep with
  | submit hcl =>
    rw [execute_fst, hcl, if_neg (by simp)]
    refine ⟨?_, ?_, ?_, ?_⟩
    · exact h1
    · show s.queued_count + 1 = s.chan_len + 1 + gmCount s
      omega
    · exact h3
    · intro _ hnw
      have hf : has_work s = false := by
        have : (decide (0 < s.queued_count + 1) || decide (0 < s.active_count)) = false := hnw
        simp at this
      have : (decide (0 < s.queued_count + 1) || decide (0 < s.active_count)) = false := hnw
      simp at this
  | dropHandle hcl =>
    exact ⟨h1, h2, h3, fun hwp hnw => h4 hwp hnw⟩
  | checkExit i hi hge =>
    have hi' : s.workers.get? i = some WorkerState.idle := hi
    have hcp : ∀ (p : WorkerState → Bool) (b : WorkerState),
        (s.workers.set i b).countP p =
          s.workers.countP p + (if p b then 1 else 0)
            - (if p WorkerState.idle then 1 else 0) :=
      fun p b => countP_set p s.workers i _ b hi'
    rw [checkExitStep_eq]
    refine ⟨?_, ?_, ?_, ?_⟩
    · show s.active_count = regionCount (setWorker s i WorkerState.exited)
      simp only [regionCount, setWorker_workers, hcp]
      simpa [regionCount] using h1
    · show s.queued_count = s.chan_len + gmCount (setWorker s i WorkerState.exited)
      simp only [gmCount, setWorker_workers, hcp]
      simp only [gmCount] at h2
      simp
      omega
    · show liveCount (setWorker s i WorkerState.exited) ≤ s.max_thread_count
      simp only [liveCount, setWorker_workers, hcp]
      simp only [liveCount] at h3
      simp
      omega
    · intro hwp hnw
      obtain ⟨j, hj⟩ := h4 hwp hnw
      have hne : j ≠ i := fun he => by rw [he, hi] at hj; exact absurd hj (by simp)
      exact ⟨j, (workerAt_set_ne s i j _ hne).trans hj⟩
  | checkPass i hi hlt =>
    have hi' : s.workers.get? i = some WorkerState.idle := hi
    have hcp : ∀ (p : WorkerState → Bool) (b : WorkerState),
        (s.workers.set i b).countP p =
          s.workers.countP p + (if p b then 1 else 0)
            - (if p WorkerState.idle then 1 else 0) :=
      fun p b => countP_set p s.workers i _ b hi'
    refine ⟨?_, ?_, ?_, ?_⟩
    · show s.active_count = regionCount (setWorker s i WorkerState.claiming)
      simp only [regionCount, setWorker_workers, hcp]
      simpa [regionCount] using h1
    · show s.queued_count = s.chan_len + gmCount (setWorker s i WorkerState.claiming)
      simp only [gmCount, setWorker_workers, hcp]
      simp only [gmCount] at h2
      simp
      omega
    · show liveCount (setWorker s i WorkerState.claiming) ≤ s.max_thread_count
      simp only [liveCount, setWorker_workers, hcp]
      simp only [liveCount] at h3
      simp
      omega
    · intro hwp hnw
      obtain ⟨j, hj⟩ := h4 hwp hnw
      have hne : j ≠ i := fun he => by rw [he, hi] at hj; exact absurd hj (by simp)
      exact ⟨j, (workerAt_set_ne s i j _ hne).trans hj⟩
  | recvJob i hi hc =>
    have hi' : s.workers.get? i = some WorkerState.claiming := hi
    have hcp : ∀ (p : WorkerState → Bool) (b : WorkerState),
        (s.workers.set i b).countP p =
          s.workers.countP p + (if p b then 1 else 0)
            - (if p WorkerState.claiming then 1 else 0) :=
      fun p b => countP_set p s.workers i _ b hi'
    refine ⟨?_, ?_, ?_, ?_⟩
    · show s.active_count = regionCount (setWorker s i WorkerState.gotJob)
      simp only [regionCount, setWorker_workers, hcp]
      simpa [regionCount] using h1
    · show s.queued_count = s.chan_len - 1 + gmCount (setWorker s i WorkerState.gotJob)
      simp only [gmCount, setWorker_workers, hcp]
      simp only [gmCount] at h2
      simp
      omega
    · show liveCount (setWorker s i WorkerState.gotJob) ≤ s.max_thread_count
      simp only [liveCount, setWorker_workers, hcp]
      simp only [liveCount] at h3
      simp
      omega
    · intro _ hnw
      have : (decide (0 < s.queued_count) || decide (0 < s.active_count)) = false := hnw
      simp only [gmCount] at h2
      simp at this
      omega
  | recvClosed i hi hce hcl =>
    have hi' : s.workers.get? i = some WorkerState.claiming := hi
    have hcp : ∀ (p : WorkerState → Bool) (b : WorkerState),
        (s.workers.set i b).countP p =
          s.workers.countP p + (if p b then 1 else 0)
            - (if p WorkerState.claiming then 1 else 0) :=
      fun p b => countP_set p s.workers i _ b hi'
    rw [recvClosedStep_eq]
    refine ⟨?_, ?_, ?_, ?_⟩
    · show s.active_count = regionCount (setWorker s i WorkerState.exited)
      simp only [regionCount, setWorker_workers, hcp]
      simpa [regionCount] using h1
    · show s.queued_count = s.chan_len + gmCount (setWorker s i WorkerState.exited)
      simp only [gmCount, setWorker_workers, hcp]
      simp only [gmCount] at h2
      simp
      omega
    · show liveCount (setWorker s i WorkerState.exited) ≤ s.max_thread_count
      simp only [liveCount, setWorker_workers, hcp]
      simp only [liveCount] at h3
      simp
      omega
    · intro hwp hnw
      obtain ⟨j, hj⟩ := h4 hwp hnw
      have hne : j ≠ i := fun he => by rw [he, hi] at hj; exact absurd hj (by simp)
      exact ⟨j, (workerAt_set_ne s i j _ hne).trans hj⟩
  | incActive i hi =>
    have hi' : s.workers.get? i = some WorkerState.gotJob := hi
    have hcp : ∀ (p : WorkerState → Bool) (b : WorkerState),
        (s.workers.set i b).countP p =
          s.workers.countP p + (if p b then 1 else 0)
            - (if p WorkerState.gotJob then 1 else 0) :=
      fun p b => countP_set p s.workers i _ b hi'
    refine ⟨?_, ?_, ?_, ?_⟩
    · show s.active_count + 1 = regionCount (setWorker s i WorkerState.midClaim)
      simp only [regionCount, setWorker_workers, hcp]
      simp only [regionCount] at h1
      simp
      omega
    · show s.queued_count = s.chan_len + gmCount (setWorker s i WorkerState.midClaim)
      simp only [gmCount, setWorker_workers, hcp]
      simp only [gmCount] at h2
      simp
      omega
    · show liveCount (setWorker s i WorkerState.midClaim) ≤ s.max_thread_count
      simp only [liveCount, setWorker_workers, hcp]
      simp only [liveCount] at h3
      simp
      omega
    · intro _ hnw
      have : (decide (0 < s.queued_count) || decide (0 < s.active_count + 1)) = false := hnw
      simp at this
  | decQueued i hi =>
    have hi' : s.workers.get? i = some WorkerState.midClaim := hi
    have hcp : ∀ (p : WorkerState → Bool) (b : WorkerState),
        (s.workers.set i b).countP p =
          s.workers.countP p + (if p b then 1 else 0)
            - (if p WorkerState.midClaim then 1 else 0) :=
      fun p b => countP_set p s.workers i _ b hi'
    have hgm : 0 < gmCount s := gmCount_pos s i _ hi (Or.inr rfl)
    have hrg : 0 < regionCount s := regionCount_pos s i _ hi (Or.inl rfl)
    refine ⟨?_, ?_, ?_, ?_⟩
    · show s.active_count = regionCount (setWorker s i WorkerState.running)
      simp only [regionCount, setWorker_workers, hcp]
      simp only [regionCount] at h1 hrg
      simp
      omega
    · show s.queued_count - 1 = s.chan_len + gmCount (setWorker s i WorkerState.running)
      simp only [gmCount, setWorker_workers, hcp]
      simp only [gmCount] at h2 hgm
      simp
      omega
    · show liveCount (setWorker s i WorkerState.running) ≤ s.max_thread_count
      simp only [liveCount, setWorker_workers, hcp]
      simp only [liveCount] at h3
      simp
      omega
    · intro _ hnw
      have : (decide (0 < s.queued_count - 1) || decide (0 < s.active_count)) = false := hnw
      simp only [regionCount] at h1
      simp only [regionCount] at hrg
      simp at this
      omega
  | finishJob i hi =>
    have hi' : s.workers.get? i = some WorkerState.running := hi
    have hcp : ∀ (p : WorkerState → Bool) (b : WorkerState),
        (s.workers.set i b).countP p =
          s.workers.countP p + (if p b then 1 else 0)
            - (if p WorkerState.running then 1 else 0) :=
      fun p b => countP_set p s.workers i _ b hi'
    have hrg : 0 < regionCount s := regionCount_pos s i _ hi (Or.inr rfl)
    refine ⟨?_, ?_, ?_, ?_⟩
    · show s.active_count - 1 = regionCount (setWorker s i WorkerState.notifying)
      simp only [regionCount, setWorker_workers, hcp]
      simp only [regionCount] at h1 hrg
      simp
      omega
    · show s.queued_count = s.chan_len + gmCount (setWorker s i WorkerState.notifying)
      simp only [gmCount, setWorker_workers, hcp]
      simp only [gmCount] at h2
      simp
      omega
    · show liveCount (setWorker s i WorkerState.notifying) ≤ s.max_thread_count
      simp only [liveCount, setWorker_workers, hcp]
      simp only [liveCount] at h3
      simp
      omega
    · intro _ _
      exact ⟨i, workerAt_set_self s i _ _ hi⟩
  | notify i hi =>
    have hi' : s.workers.get? i = some WorkerState.notifying := hi
    have hcp : ∀ (p : WorkerState → Bool) (b : WorkerState),
        (s.workers.set i b).countP p =
          s.workers.countP p + (if p b then 1 else 0)
            - (if p WorkerState.notifying then 1 else 0) :=
      fun p b => countP_set p s.workers i _ b hi'
    refine ⟨?_, ?_, ?_, ?_⟩
    · show (notifyStep s i).active_count = regionCount (notifyStep s i)
      have hw : (notifyStep s i).workers = s.workers.set i WorkerState.idle := by
        simp [notifyStep]
      have ha : (notifyStep s i).active_count = s.active_count := by
        simp [notifyStep]
      rw [ha]
      unfold regionCount
      rw [hw, hcp]
      simpa [regionCount] using h1
    · show (notifyStep s i).queued_count = (notifyStep s i).chan_len + gmCount (notifyStep s i)
      have hw : (notifyStep s i).workers = s.workers.set i WorkerState.idle := by
        simp [notifyStep]
      have hq : (notifyStep s i).queued_count = s.queued_count := by simp [notifyStep]
      have hc : (notifyStep s i).chan_len = s.chan_len := by simp [notifyStep]
      rw [hq, hc]
      unfold gmCount
      rw [hw, hcp]
      simp only [gmCount] at h2
      simp
      omega
    · show liveCount (notifyStep s i) ≤ (notifyStep s i).max_thread_count
      have hw : (notifyStep s i).workers = s.workers.set i WorkerState.idle := by
        simp [notifyStep]
      have hm : (notifyStep s i).max_thread_count = s.max_thread_count := by
        simp [notifyStep]
      rw [hm]
      unfold liveCount
      rw [hw, hcp]
      simp only [liveCount] at h3
      simp
      omega
    · intro hwp hnw
      exfalso
      have hnw' : has_work (setWorker s i WorkerState.idle) = false := by
        have hq : (notifyStep s i).queued_count = s.queued_count := by simp [notifyStep]
        have ha : (notifyStep s i).active_count = s.active_count := by simp [notifyStep]
        have : has_work (notifyStep s i) = false := hnw
        simpa [has_work, hq, ha] using this
      have hwz : (notifyStep s i).waiters = 0 := by
        simp [notifyStep, notify_waiters, hnw']
      rw [hwz] at hwp
      exact absurd hwp (by simp)
  | panicJob i hi =>
    have hi' : s.workers.get? i = some WorkerState.running := hi
    have hcp : ∀ (p : WorkerState → Bool) (b : WorkerState),
        (s.workers.set i b).countP p =
          s.workers.countP p + (if p b then 1 else 0)
            - (if p WorkerState.running then 1 else 0) :=
      fun p b => countP_set p s.workers i _ b hi'
    have hrg : 0 < regionCount s := regionCount_pos s i _ hi (Or.inr rfl)
    have hlv : 0 < liveCount s := liveCount_pos s i _ hi (by simp)
    have hw : (panicStep s i).workers =
        (s.workers.set i WorkerState.exited) ++ [WorkerState.idle] := by
      rw [panicStep_eq]
      simp
    have hq : (panicStep s i).queued_count = s.queued_count := by
      rw [panicStep_eq]; simp
    have ha : (panicStep s i).active_count = s.active_count - 1 := by
      rw [panicStep_eq]; simp
    have hc : (panicStep s i).chan_len = s.chan_len := by
      rw [panicStep_eq]; simp
    have hm : (panicStep s i).max_thread_count = s.max_thread_count := by
      rw [panicStep_eq]; simp
    refine ⟨?_, ?_, ?_, ?_⟩
    · show (panicStep s i).active_count = regionCount (panicStep s i)
      rw [ha]
      unfold regionCount
      rw [hw, List.countP_append, hcp]
      simp only [regionCount] at h1 hrg
      simp
      omega
    · show (panicStep s i).queued_count = (panicStep s i).chan_len + gmCount (panicStep s i)
      rw [hq, hc]
      unfold gmCount
      rw [hw, List.countP_append, hcp]
      simp only [gmCount] at h2
      simp
      omega
    · show liveCount (panicStep s i) ≤ (panicStep s i).max_thread_count
      rw [hm]
      unfold liveCount
      rw [hw, List.countP_append, hcp]
      simp only [liveCount] at h3 hlv
      simp
      omega
    · intro hwp hnw
      exfalso
      have hfact : (decide (0 < s.queued_count) || decide (0 < s.active_count - 1)) = false := by
        have h5 : has_work (panicStep s i) = false := hnw
        simpa [has_work, hq, ha] using h5
      have hcond : ¬ (has_work { setWorker s i WorkerState.exited with
          active_count := s.active_count - 1
          panic_count := s.panic_count + 1 } = true) := by
        intro hx
        have hx' : (decide (0 < s.queued_count) || decide (0 < s.active_count - 1)) = true := hx
        exact Bool.noConfusion (hfact.symm.trans hx')
      have hwz : (panicStep s i).waiters = 0 := by
        rw [panicStep_eq]
        simp only [spawn_waiters, notify_waiters]
        rw [if_neg hcond]
      rw [hwz] at hwp
      exact absurd hwp (by simp)
  | waitBlock hhw =>
    rw [wait_until_idle_step_fst, if_pos hhw]
    refine ⟨h1, h2, h3, ?_⟩
    · intro _ hnw
      have hf : has_work s = false := hnw
      rw [hhw] at hf
      exact Bool.noConfusion hf

lemma inv_reachable (n : Nat) {s : PoolState}
    (h : Reachable (initState n) s) : Inv s := by
  induction h with
  | refl => exact inv_initState n
  | tail _ hst ih => exact inv_step hst ih

section Traces

lemma step_sAB : Step (initState 1) sB := Step.submit rfl

lemma step_sBC : Step sB sC := Step.waitBlock (by decide)

lemma step_sCD : Step sC sD := Step.checkPass 0 (by decide) (by decide)

lemma step_sDE : Step sD sE := Step.recvJob 0 (by decide) (by decide)

lemma step_sEF : Step sE sF := Step.incActive 0 (by decide)

lemma step_sFG : Step sF sG := Step.decQueued 0 (by decide)

lemma step_sGH : Step sG sH := Step.finishJob 0 (by decide)

lemma reach_sF : Reachable (initState 1) sF :=
  Reachable.tail (Reachable.tail (Reachable.tail (Reachable.tail
    (Reachable.tail Reachable.refl step_sAB) step_sBC) step_sCD) step_sDE) step_sEF

lemma reach_sG : Reachable (initState 1) sG := Reachable.tail reach_sF step_sFG

lemma reach_sH : Reachable (initState 1) sH := Reachable.tail reach_sG step_sGH

lemma step_zAB : Step (initState 2) zB := Step.submit rfl

lemma step_zBC : Step zB zC := Step.checkPass 0 (by decide) (by decide)

lemma step_zCD : Step zC zD := Step.recvJob 0 (by decide) (by decide)

lemma step_zDE : Step zD zE := Step.incActive 0 (by decide)

lemma step_zEF : Step zE zF := Step.decQueued 0 (by decide)

lemma step_zFG : Step zF zG := Step.dropHandle (by decide)

lemma step_zGH : Step zG zH := Step.checkPass 1 (by decide) (by decide)

lemma step_zHI : Step zH zI := Step.recvClosed 1 (by decide) (by decide) (by decide)

lemma reach_zF : Reachable (initState 2) zF :=
  Reachable.tail (Reachable.tail (Reachable.tail (Reachable.tail
    (Reachable.tail Reachable.refl step_zAB) step_zBC) step_zCD) step_zDE) step_zEF

lemma reach_zG : Reachable (initState 2) zG := Reachable.tail reach_zF step_zFG

lemma reach_zH : Reachable (initState 2) zH := Reachable.tail reach_zG step_zGH

lemma reach_zI : Reachable (initState 2) zI := Reachable.tail reach_zH step_zHI

end Traces

/-- Inversion: the only transitions that take a live worker to `exited` are
the loop-top comparison (requiring `active_count >= max_thread_count`), the
closed-signal from `recv` (requiring a closed and drained channel), and the
worker's own job panicking. -/
lemma step_exit_cases {s s' : PoolState} (h : Step s s') (i : Nat) (w : WorkerState)
    (hw : workerAt s i = some w) (hne : w ≠ WorkerState.exited)
    (he : workerAt s' i = some WorkerState.exited) :
    (w = WorkerState.idle ∧ s.max_thread_count ≤ s.active_count ∧ s' = checkExitStep s i) ∨
    (w = WorkerState.claiming ∧ s.closed = true ∧ s.chan_len = 0 ∧ s' = recvClosedStep s i) ∨
    (w = WorkerState.running ∧ s' = panicStep s i) := by
  cases h with
  | submit hcl =>
    exfalso
    have hwk : (ThreadPool.execute s).1.workers = s.workers := by
      rw [execute_fst]; split <;> rfl
    have he' : s.workers.get? i = some WorkerState.exited := by
      have h0 : (ThreadPool.execute s).1.workers.get? i = some WorkerState.exited := he
      rwa [hwk] at h0
    exact hne (Option.some.inj ((show s.workers.get? i = some w from hw).symm.trans he'))
  | dropHandle hcl =>
    exfalso
    have he' : s.workers.get? i = some WorkerState.exited := he
    exact hne (Option.some.inj ((show s.workers.get? i = some w from hw).symm.trans he'))
  | checkExit j hj hge =>
    rw [checkExitStep_eq] at he
    by_cases hij : i = j
    · subst hij
      exact Or.inl ⟨Option.some.inj (hw.symm.trans hj), hge, rfl⟩
    · exfalso
      rw [workerAt_set_ne s j i _ hij] at he
      exact hne (Option.some.inj (hw.symm.trans he))
  | checkPass j hj hlt =>
    exfalso
    by_cases hij : i = j
    · subst hij
      have he2 : workerAt (setWorker s i WorkerState.claiming) i = some WorkerState.exited := he
      rw [workerAt_set_self s i _ _ hj] at he2
      exact absurd (Option.some.inj he2) (by simp)
    · have he2 : workerAt (setWorker s j WorkerState.claiming) i = some WorkerState.exited := he
      rw [workerAt_set_ne s j i _ hij] at he2
      exact hne (Option.some.inj (hw.symm.trans he2))
  | recvJob j hj hc =>
    exfalso
    by_cases hij : i = j
    · subst hij
      have he2 : workerAt (setWorker s i WorkerState.gotJob) i = some WorkerState.exited := he
      rw [workerAt_set_self s i _ _ hj] at he2
      exact absurd (Option.some.inj he2) (by simp)
    · have he2 : workerAt (setWorker s j WorkerState.gotJob) i = some WorkerState.exited := he
      rw [workerAt_set_ne s j i _ hij] at he2
      exact hne (Option.some.inj (hw.symm.trans he2))
  | recvClosed j hj hcz hcl =>
    rw [recvClosedStep_eq] at he
    by_cases hij : i = j
    · subst hij
      exact Or.inr (Or.inl ⟨Option.some.inj (hw.symm.trans hj), hcl, hcz, rfl⟩)
    · exfalso
      rw [workerAt_set_ne s j i _ hij] at he
      exact hne (Option.some.inj (hw.symm.trans he))
  | incActive j hj =>
    exfalso
    by_cases hij : i = j
    · subst hij
      have he2 : workerAt (setWorker s i WorkerState.midClaim) i = some WorkerState.exited := he
      rw [workerAt_set_self s i _ _ hj] at he2
      exact absurd (Option.some.inj he2) (by simp)
    · have he2 : workerAt (setWorker s j WorkerState.midClaim) i = some WorkerState.exited := he
      rw [workerAt_set_ne s j i _ hij] at he2
      exact hne (Option.some.inj (hw.symm.trans he2))
  | decQueued j hj =>
    exfalso
    by_cases hij : i = j
    · subst hij
      have he2 : workerAt (setWorker s i WorkerState.running) i = some WorkerState.exited := he
      rw [workerAt_set_self s i _ _ hj] at he2
      exact absurd (Option.some.inj he2) (by simp)
    · have he2 : workerAt (setWorker s j WorkerState.running) i = some WorkerState.exited := he
      rw [workerAt_set_ne s j i _ hij] at he2
      exact hne (Option.some.inj (hw.symm.trans he2))
  | finishJob j hj =>
    exfalso
    by_cases hij : i = j
    · subst hij
      have he2 : workerAt (setWorker s i WorkerState.notifying) i = some WorkerState.exited := he
      rw [workerAt_set_self s i _ _ hj] at he2
      exact absurd (Option.some.inj he2) (by simp)
    · have he2 : workerAt (setWorker s j WorkerState.notifying) i = some WorkerState.exited := he
      rw [workerAt_set_ne s j i _ hij] at he2
      exact hne (Option.some.inj (hw.symm.trans he2))
  | notify j hj =>
    exfalso
    have he2 : workerAt (setWorker s j WorkerState.idle) i = some WorkerState.exited := by
      have hwk : (notifyStep s j).workers = (setWorker s j WorkerState.idle).workers := by
        simp [notifyStep]
      have h0 : (notifyStep s j).workers.get? i = some WorkerState.exited := he
      rw [hwk] at h0
      exact h0
    by_cases hij : i = j
    · subst hij
      rw [workerAt_set_self s i _ _ hj] at he2
      exact absurd (Option.some.inj he2) (by simp)
    · rw [workerAt_set_ne s j i _ hij] at he2
      exact hne (Option.some.inj (hw.symm.trans he2))
  | panicJob j hj =>
    by_cases hij : i = j
    · subst hij
      exact Or.inr (Or.inr ⟨Option.some.inj (hw.symm.trans hj), rfl⟩)
    · exfalso
      have hwk : (panicStep s j).workers =
          (s.workers.set j WorkerState.exited) ++ [WorkerState.idle] := by
        rw [panicStep_eq]; simp
      have he2 : ((s.workers.set j WorkerState.exited) ++ [WorkerState.idle]).get? i =
          some WorkerState.exited := by
        have h0 : (panicStep s j).workers.get? i = some WorkerState.exited := he
        rwa [hwk] at h0
      rw [get?_concat] at he2
      by_cases hi2 : i < (s.workers.set j WorkerState.exited).length
      · rw [if_pos hi2] at he2
        rw [get?_set, if_neg (fun hc2 => hij hc2.1)] at he2
        exact hne (Option.some.inj ((show s.workers.get? i = some w from hw).symm.trans he2))
      · rw [if_neg hi2] at he2
        by_cases hi3 : i = (s.workers.set j WorkerState.exited).length
        · rw [if_pos hi3] at he2
          exact absurd (Option.some.inj he2) (by simp)
        · rw [if_neg hi3] at he2
          exact Option.noConfusion he2
  | waitBlock hhw =>
    exfalso
    have hwk : (wait_until_idle_step s).1.workers = s.workers := by
      rw [wait_until_idle_step_fst]; split <;> rfl
    have he' : s.workers.get? i = some WorkerState.exited := by
      have h0 : (wait_until_idle_step s).1.workers.get? i = some WorkerState.exited := he
      rwa [hwk] at h0
    exact hne (Option.some.inj ((show s.workers.get? i = some w from hw).symm.trans he'))

/-- Claim C2: in every reachable state of the pool, for any interleaving of
worker steps, submissions and replacements, `active_count` never exceeds
`max_thread_count` (the target worker count). -/
theorem active_count_le_max_thread_count (n : Nat) (s : PoolState)
    (h : Reachable (initState n) s) : s.active_count ≤ s.max_thread_count := by
  obtain ⟨h1, _, h3, _⟩ := inv_reachable n h
  have hrl : regionCount s ≤ liveCount s := by
    have h0 : ∀ a : WorkerState,
        (decide (a = WorkerState.midClaim) || decide (a = WorkerState.running)) = true →
        (!decide (a = WorkerState.exited)) = true := by
      intro a ha
      have ha' : a = WorkerState.midClaim ∨ a = WorkerState.running := by
        simpa using ha
      rcases ha' with h0 | h0 <;> simp [h0]
    exact countP_le_of_imp _ _ s.workers h0
  omega

/-- Claim C2 witness: the invariant evaluated on the concrete reachable
state `sG`, in which `active_count = 1 = max_thread_count`. -/
theorem active_count_le_max_thread_count_witness :
    sG.active_count ≤ sG.max_thread_count :=
  active_count_le_max_thread_count 1 sG reach_sG

/-- Claim C7: a worker exits by downsizing only from the top of its loop
(the `Idle` state), exactly when it observed
`active_count >= max_thread_count`, and such an exit claims no further job
(channel and `queued_count` untouched, no failure counted); the only other
ways a worker exits are the closed-signal (from the `claiming` state) and
its own running job panicking (flagged by the `panic_count` increment), so
downsizing never interrupts a job already running. -/
theorem shrink_exit_only_from_idle {s s' : PoolState} (h : Step s s') (i : Nat)
    (w : WorkerState) (hw : workerAt s i = some w) (hne : w ≠ WorkerState.exited)
    (he : workerAt s' i = some WorkerState.exited) :
    (w = WorkerState.idle ∧ s.max_thread_count ≤ s.active_count ∧
      s' = checkExitStep s i ∧ s'.chan_len = s.chan_len ∧
      s'.queued_count = s.queued_count ∧ s'.panic_count = s.panic_count) ∨
    (w = WorkerState.claiming ∧ s.closed = true ∧ s.chan_len = 0) ∨
    (w = WorkerState.running ∧ s'.panic_count = s.panic_count + 1) := by
  rcases step_exit_cases h i w hw hne he with ⟨h1, h2, h3⟩ | ⟨h1, h2, h3, _⟩ | ⟨h1, h2⟩
  · subst h3
    exact Or.inl ⟨h1, h2, rfl, rfl, rfl, rfl⟩
  · exact Or.inr (Or.inl ⟨h1, h2, h3⟩)
  · subst h2
    refine Or.inr (Or.inr ⟨h1, ?_⟩)
    rw [panicStep_eq]
    simp

/-- Claim C7 witness: the loop-top exit evaluated on the concrete state
`w0` (one idle worker, `max_thread_count = 0`). -/
theorem shrink_exit_only_from_idle_witness :
    (WorkerState.idle = WorkerState.idle ∧ w0.max_thread_count ≤ w0.active_count ∧
      checkExitStep w0 0 = checkExitStep w0 0 ∧
      (checkExitStep w0 0).chan_len = w0.chan_len ∧
      (checkExitStep w0 0).queued_count = w0.queued_count ∧
      (checkExitStep w0 0).panic_count = w0.panic_count) ∨
    (WorkerState.idle = WorkerState.claiming ∧ w0.closed = true ∧ w0.chan_len = 0) ∨
    (WorkerState.idle = WorkerState.running ∧
      (checkExitStep w0 0).panic_count = w0.panic_count + 1) :=
  shrink_exit_only_from_idle (Step.checkExit 0 (by decide) (by decide)) 0
    WorkerState.idle (by decide) (by decide) (by decide)

/-- Claim C1: when a running job panics, the armed `Sentinel`'s drop — run
before the failing worker's thread exits — increments `panic_count`
(failure count), decrements `active_count`, and spawns exactly one
brand-new worker bound to the same shared pool state, so the number of
live workers after the failure equals the number before; every other
worker, the queue contents and the handle's view (`queued_count`,
`chan_len`, `closed`) are untouched, so the failure reaches neither the
caller nor other jobs. -/
theorem threadpool_panic_replaces_worker (n : Nat) (s : PoolState) (i : Nat)
    (hr : Reachable (initState n) s)
    (hrun : workerAt s i = some WorkerState.running) :
    Step s (panicStep s i) ∧
    1 ≤ s.active_count ∧
    (panicStep s i).panic_count = s.panic_count + 1 ∧
    (panicStep s i).active_count = s.active_count - 1 ∧
    (panicStep s i).workers.length = s.workers.length + 1 ∧
    workerAt (panicStep s i) s.workers.length = some WorkerState.idle ∧
    workerAt (panicStep s i) i = some WorkerState.exited ∧
    liveCount (panicStep s i) = liveCount s ∧
    (∀ j, j ≠ i → j < s.workers.length →
      workerAt (panicStep s i) j = workerAt s j) ∧
    (panicStep s i).queued_count = s.queued_count ∧
    (panicStep s i).chan_len = s.chan_len ∧
    (panicStep s i).closed = s.closed ∧
    (panicStep s i).max_thread_count = s.max_thread_count := by
  have hi' : s.workers.get? i = some WorkerState.running := hrun
  have hlen : i < s.workers.length := workerAt_lt_length s i _ hrun
  obtain ⟨h1, _, _, _⟩ := inv_reachable n hr
  have hrg : 0 < regionCount s := regionCount_pos s i _ hrun (Or.inr rfl)
  have hwk : (panicStep s i).workers =
      (s.workers.set i WorkerState.exited) ++ [WorkerState.idle] := by
    rw [panicStep_eq]; simp
  have hcp : ∀ (p : WorkerState → Bool) (b : WorkerState),
      (s.workers.set i b).countP p =
        s.workers.countP p + (if p b then 1 else 0)
          - (if p WorkerState.running then 1 else 0) :=
    fun p b => countP_set p s.workers i _ b hi'
  have hlv : 0 < liveCount s := liveCount_pos s i _ hrun (by simp)
  refine ⟨Step.panicJob i hrun, by omega, ?_, ?_, ?_, ?_, ?_, ?_, ?_, ?_, ?_, ?_, ?_⟩
  · rw [panicStep_eq]; simp
  · rw [panicStep_eq]; simp
  · rw [hwk]
    simp [List.length_set]
  · show (panicStep s i).workers.get? s.workers.length = some WorkerState.idle
    rw [hwk, get?_concat, List.length_set]
    rw [if_neg (by omega), if_pos rfl]
  · show (panicStep s i).workers.get? i = some WorkerState.exited
    rw [hwk, get?_concat, List.length_set, if_pos hlen, get?_set,
      if_pos ⟨rfl, hlen⟩]
  · unfold liveCount
    rw [hwk, List.countP_append, hcp]
    simp only [liveCount] at hlv
    simp
    omega
  · intro j hji hjlt
    show (panicStep s i).workers.get? j = s.workers.get? j
    rw [hwk, get?_concat, List.length_set, if_pos hjlt, get?_set,
      if_neg (fun hc2 => hji hc2.1)]
  · rw [panicStep_eq]; simp
  · rw [panicStep_eq]; simp
  · rw [panicStep_eq]; simp
  · rw [panicStep_eq]; simp

/-- Claim C1 witness: the panic transition evaluated on the concrete
reachable state `sG`, whose single worker is running a job. -/
theorem threadpool_panic_replaces_worker_witness :
    (panicStep sG 0).panic_count = sG.panic_count + 1 ∧
    (panicStep sG 0).active_count = sG.active_count - 1 ∧
    liveCount (panicStep sG 0) = liveCount sG ∧
    workerAt (panicStep sG 0) 1 = some WorkerState.idle := by
  obtain ⟨hstep, hact, hpc, hac, hlen, hnew, hex, hlive, hframe, hq, hc, hcl, hm⟩ :=
    threadpool_panic_replaces_worker 1 sG 0 reach_sG (by decide)
  exact ⟨hpc, hac, hlive, hnew⟩

/-- Claim C3 counterexample: the reachable state `sF` lies strictly between
the two counter updates that the claim calls a single atomic update: after
`active_count.fetch_add(1)` (src/lib.rs line 193) and before
`queued_count.fetch_sub(1)` (line 194) an external observer reads
`queued_count = 1` and `active_count = 1` for one claimed job, so the
dequeue transition is two separately observable atomic operations, not
one. -/
theorem claim_dequeue_not_single_update :
    Reachable (initState 1) sF ∧
    workerAt sF 0 = some WorkerState.midClaim ∧
    sF.queued_count = 1 ∧ sF.active_count = 1 ∧
    Step sE sF ∧ sF = incActiveStep sE 0 ∧
    Step sF sG ∧ sG = decQueuedStep sF 0 ∧
    sG.queued_count = 0 ∧ sG.active_count = 1 :=
  ⟨reach_sF, by decide, by decide, by decide, step_sEF, rfl, step_sFG, rfl,
    by decide, by decide⟩

/-- Claim C3 (amended): the worker's claim transition is two separate
atomic updates, `active_count.fetch_add(1)` strictly before
`queued_count.fetch_sub(1)`; because the increment comes first the
intermediate state overcounts rather than undercounts, and in every
reachable state a claimed-but-incomplete job keeps `has_work()` true, so
no observer sees `queued_count` and `active_count` both read zero while a
claimed job has not completed. -/
theorem no_transient_idle_undercount (n : Nat) (s : PoolState) (i : Nat)
    (w : WorkerState) (hr : Reachable (initState n) s)
    (hw : workerAt s i = some w)
    (hcl : w = WorkerState.gotJob ∨ w = WorkerState.midClaim ∨
      w = WorkerState.running) :
    has_work s = true := by
  obtain ⟨h1, h2, _, _⟩ := inv_reachable n hr
  rcases hcl with h0 | h0 | h0
  · have hgm : 0 < gmCount s := gmCount_pos s i w hw (Or.inl h0)
    have hq : 0 < s.queued_count := by omega
    simp [has_work, hq]
  · have hgm : 0 < gmCount s := gmCount_pos s i w hw (Or.inr h0)
    have hq : 0 < s.queued_count := by omega
    simp [has_work, hq]
  · have hrg : 0 < regionCount s := regionCount_pos s i w hw (Or.inr h0)
    have ha : 0 < s.active_count := by omega
    simp [has_work, ha]

/-- Claim C3 (amended) witness: evaluated at the mid-transition state `sF`. -/
theorem no_transient_idle_undercount_witness : has_work sF = true :=
  no_transient_idle_undercount 1 sF 0 WorkerState.midClaim reach_sF (by decide)
    (Or.inr (Or.inl rfl))

/-- Claim C4 counterexample: in the reachable state `zG` the `ThreadPool`
handle's drop has already completed (`closed = true` — the struct has no
`Drop` impl and no join, src/lib.rs lines 139-142) while both workers are
still live and worker 0 is still executing the job; in the further
reachable state `zI`, worker 1 has received the closed-signal and exited
while the previously queued job is still executing on worker 0.  So
destroying the handle does not block until every spawned worker thread has
exited, and a worker can receive the closed-signal before all previously
queued jobs have been executed. -/
theorem drop_does_not_join_counterexample :
    Reachable (initState 2) zG ∧ zG = ThreadPool.dropHandle zF ∧
    zG.closed = true ∧ liveCount zG = 2 ∧
    workerAt zG 0 = some WorkerState.running ∧
    Reachable (initState 2) zI ∧ zI.closed = true ∧
    workerAt zI 1 = some WorkerState.exited ∧
    workerAt zI 0 = some WorkerState.running ∧ liveCount zI = 1 :=
  ⟨reach_zG, rfl, by decide, by decide, by decide, reach_zI, by decide,
    by decide, by decide, by decide⟩

/-- Claim C4 (amended): dropping the `ThreadPool` closes the producer side
of the queue and returns immediately, changing nothing else; a worker
receives the closed-signal only when the channel is closed and already
drained of every previously queued job (jobs already claimed may still be
executing, and the drop does not wait for the worker threads to exit). -/
theorem drop_closes_then_workers_drain {s s' : PoolState} (h : Step s s') (i : Nat)
    (hc : workerAt s i = some WorkerState.claiming)
    (he : workerAt s' i = some WorkerState.exited) :
    s.closed = true ∧ s.chan_len = 0 ∧ s' = recvClosedStep s i ∧
    ThreadPool.dropHandle s = { s with closed := true } := by
  rcases step_exit_cases h i _ hc (by simp) he with
    ⟨h0, _, _⟩ | ⟨_, h1, h2, h3⟩ | ⟨h0, _⟩
  · exact absurd h0 (by simp)
  · exact ⟨h1, h2, h3, rfl⟩
  · exact absurd h0 (by simp)

/-- Claim C4 (amended) witness: the closed-signal transition of worker 1
between the concrete reachable states `zH` and `zI`. -/
theorem drop_closes_then_workers_drain_witness :
    zH.closed = true ∧ zH.chan_len = 0 ∧ zI = recvClosedStep zH 1 ∧
    ThreadPool.dropHandle zH = { zH with closed := true } :=
  drop_closes_then_workers_drain step_zHI 1 (by decide) (by decide)

/-- Claim C5: `ThreadPool::execute` always increments `queued_count` first
(in both outcomes the counter has grown by one), then enqueues the job; it
is a total function of the pre-state (the channel is unbounded, so the
caller is never blocked); it succeeds exactly when the queue is still open
and fails exactly when the queue has already been closed, in which case
the failure is reported to the caller (the `expect` panic, modelled as the
returned error) instead of the job being silently dropped. -/
theorem execute_increments_then_enqueues (s : PoolState) :
    (ThreadPool.execute s).1.queued_count = s.queued_count + 1 ∧
    ((ThreadPool.execute s).2 = Except.ok () ↔ s.closed = false) ∧
    ((ThreadPool.execute s).2 =
      Except.error "ThreadPool::execute unable to send job into queue." ↔
      s.closed = true) ∧
    (ThreadPool.execute s).1.chan_len =
      (if s.closed then s.chan_len else s.chan_len + 1) := by
  by_cases h : s.closed <;> simp [ThreadPool.execute, h]

/-- Claim C6: `Sentinel::cancel` disarms the guard, and the disarmed
guard's drop changes no shared state at all; the two graceful-exit paths
(loop-top comparison and closed-signal) go through the cancelled guard and
amount to the worker merely marking itself exited — `active_count`,
`panic_count` and the set of other workers are untouched and no
replacement worker is spawned, so the guard's cleanup runs at most once
per worker lifetime. -/
theorem sentinel_cancel_neutralizes_drop (g : Sentinel) (p : Bool)
    (s : PoolState) (i : Nat) :
    (Sentinel.cancel g).active = false ∧
    Sentinel.dropRun (Sentinel.cancel g) p s = s ∧
    checkExitStep s i = setWorker s i WorkerState.exited ∧
    (checkExitStep s i).active_count = s.active_count ∧
    (checkExitStep s i).panic_count = s.panic_count ∧
    (checkExitStep s i).waiters = s.waiters ∧
    (checkExitStep s i).workers.length = s.workers.length ∧
    recvClosedStep s i = setWorker s i WorkerState.exited ∧
    (recvClosedStep s i).workers.length = s.workers.length := by
  refine ⟨rfl, rfl, rfl, rfl, rfl, rfl, ?_, rfl, ?_⟩
  · rw [checkExitStep_eq]
    simp
  · rw [recvClosedStep_eq]
    simp

/-- Claim C8: `Builder::build` — and therefore `ThreadPool::new` — panics
(modelled as `Except.error` with the source's panic message) exactly when
zero workers are requested, instead of returning a pool that could never
execute a job; any positive request yields the initial pool state. -/
theorem build_rejects_zero_threads :
    (∀ b : Builder, b.build =
      if b.num_threads = 0 then
        Except.error "please enter a size bigger than 0"
      else Except.ok (initState b.num_threads)) ∧
    (∀ n : Nat, ThreadPool.new n =
      if n = 0 then Except.error "please enter a size bigger than 0"
      else Except.ok (initState n)) :=
  ⟨fun _ => rfl, fun _ => rfl⟩

/-- Claim C9 (`wait_until_idle` itself is modelled from the spec; the
notification side `no_work_notify_all` is src/lib.rs lines 128-136):
`wait_until_idle` returns immediately exactly when
`queued_count = 0 ∧ active_count = 0` (`has_work()` false) and otherwise
blocks the caller as one more waiter; `no_work_notify_all` wakes every
blocked waiter exactly when `has_work()` is false; the check and the block
are protected by the same `empty_trigger` mutex as the notification
(modelled by each being a single atomic step), and no wake-up racing with
a job completion is lost: in every reachable state in which a waiter is
blocked while `has_work()` is false, some worker has already decremented
`active_count` and is poised to run `no_work_notify_all`, whose step wakes
every waiter. -/
theorem wait_until_idle_no_lost_wakeup :
    (∀ s : PoolState, (wait_until_idle_step s).2 = true ↔
      (s.queued_count = 0 ∧ s.active_count = 0)) ∧
    (∀ s : PoolState, (wait_until_idle_step s).2 = false →
      (wait_until_idle_step s).1.waiters = s.waiters + 1) ∧
    (∀ s : PoolState, (no_work_notify_all s).waiters =
      (if has_work s then s.waiters else 0)) ∧
    (∀ s : PoolState, ∀ i : Nat, has_work s = false →
      (notifyStep s i).waiters = 0) ∧
    (∀ n : Nat, ∀ s : PoolState, Reachable (initState n) s →
      0 < s.waiters → has_work s = false →
      ∃ i, workerAt s i = some WorkerState.notifying) := by
  refine ⟨?_, ?_, ?_, ?_, ?_⟩
  · intro s
    by_cases hw : has_work s
    · have hqa := hw
      simp only [has_work] at hqa
      simp only [Bool.or_eq_true, decide_eq_true_eq] at hqa
      simp [wait_until_idle_step, hw]
      omega
    · have hqa := hw
      simp only [has_work] at hqa
      simp only [Bool.or_eq_true, decide_eq_true_eq] at hqa
      simp [wait_until_idle_step, hw]
      omega
  · intro s h
    by_cases hw : has_work s
    · simp [wait_until_idle_step, hw]
    · simp [wait_until_idle_step, hw] at h
  · intro s
    exact notify_waiters s
  · intro s i h
    have h2 : has_work (setWorker s i WorkerState.idle) = false := h
    simp [notifyStep, notify_waiters, h2]
  · intro n s hr hwp hnw
    exact (inv_reachable n hr).2.2.2 hwp hnw

/-- Claim C9 witness: on the concrete trace, the caller blocks at `sB`
(work pending), and at the reachable state `sH` the waiter is still
blocked with `has_work()` false while worker 0 is the poised notifier,
whose step wakes the waiter. -/
theorem wait_until_idle_no_lost_wakeup_witness :
    (wait_until_idle_step sB).2 = false ∧
    (wait_until_idle_step sB).1.waiters = sB.waiters + 1 ∧
    (0 < sH.waiters ∧ has_work sH = false) ∧
    (∃ i, workerAt sH i = some WorkerState.notifying) ∧
    (notifyStep sH 0).waiters = 0 := by
  have h := wait_until_idle_no_lost_wakeup
  refine ⟨by decide, h.2.1 sB (by decide), ⟨by decide, by decide⟩, ?_, ?_⟩
  · exact h.2.2.2.2 1 sH reach_sH (by decide) (by decide)
  · exact h.2.2.2.1 sH 0 (by decide)

/-- Claim C10: `ThreadPool::execute` increments `queued_count` before the
`send`; on the closed-queue path the send fails (the `expect` panic,
modelled as the returned error), nothing is enqueued, and the increment is
not rolled back, so the shared `queued_count` has still grown by one even
though the submission failed — submission is not atomic on error. -/
theorem execute_error_leaks_queued_count (s : PoolState)
    (h : s.closed = true) :
    (ThreadPool.execute s).2 =
      Except.error "ThreadPool::execute unable to send job into queue." ∧
    (ThreadPool.execute s).1.queued_count = s.queued_count + 1 ∧
    (ThreadPool.execute s).1.chan_len = s.chan_len := by
  simp [ThreadPool.execute, h]

/-- Claim C10 witness: evaluated on the concrete reachable closed-pool
state `zG`. -/
theorem execute_error_leaks_queued_count_witness :
    (ThreadPool.execute zG).2 =
      Except.error "ThreadPool::execute unable to send job into queue." ∧
    (ThreadPool.execute zG).1.queued_count = zG.queued_count + 1 ∧
    (ThreadPool.execute zG).1.chan_len = zG.chan_len :=
  execute_error_leaks_queued_count zG (by decide)

end Threatpool
